import Mathlib

/-!
# CustomVideoPlayer.js: overlay lifecycle and wait-mode bridge

A shallow embedding of `src/CustomVideoPlayer.js`.  The module-level variables
`customVideoElement` and `skipEventListener`, the children of `document.body`, the event
listeners the plugin registers and `$gameTemp._customVideoPlaying` form an explicit `State`;
every function of the plugin is a state transformer.  DOM calls that can throw
(`removeChild`) return `Except`, so that "never raises" is a statement about the code and
not about the embedding.

Two fields of `State` are instrumentation and are never read by the embedded code:
`nextUid` hands out object identities (for elements and for the closures created next to
them) and `log` records, in order, the observable effects the plugin performed.
-/

namespace CustomVideoPlayer

/-! ## Data model -/

/-- The value held by `$gameTemp._customVideoPlaying`: nothing assigns it before the first
armed command, so it starts out `undefined`; the plugin only ever writes booleans. -/
inductive JSValue where
  | undefined
  | boolean (b : Bool)
  deriving DecidableEq

/-- The only function ever passed as `options.onEnd` (line 174):
`() => $gameTemp._customVideoPlaying = false`. -/
inductive Callback where
  | clearPlaying
  deriving DecidableEq

/-- A JS number kept symbolic, as the builtin conversion applied to the raw argument. -/
inductive JSNumber where
  /-- The value of `parseFloat(raw) || 1.0`. -/
  | floatOrOne (raw : String)
  /-- The value of `parseInt(raw || 100)`. -/
  | intOrHundred (raw : String)
  deriving DecidableEq

/-- The argument record the engine hands to the command: every field is a string. -/
structure Args where
  src : String
  speed : String
  wait : String
  fade : String
  skipEnabled : String
  width : String
  height : String
  loop : String
  deriving DecidableEq

/-- The `options` object literal built by the command handler; `onEnd` is absent
(`none`) in the unarmed branch. -/
structure Options where
  source : String
  speed : JSNumber
  wait : Bool
  fade : Bool
  skipEnabled : Bool
  width : JSNumber
  height : JSNumber
  loop : Bool
  onEnd : Option Callback
  deriving DecidableEq

/-- A `<video>` element; `uid` is its object identity, the other fields are the attributes
`createVideoElement` gives it that depend on the options (the constant ones, such as
`id = "customVideoPlayer"` and the centring styles, are the same for every element). -/
structure VideoElement where
  uid : Nat
  src : String
  width : JSNumber
  height : JSNumber
  opacity : String
  playbackRate : JSNumber
  loop : Bool
  deriving DecidableEq

/-- The event types the plugin subscribes to. -/
inductive EventType where
  | keydown
  | mousedown
  | touchend
  | ended
  deriving DecidableEq

/-- An event target: `document` or one of the plugin's video elements. -/
inductive Target where
  | document
  | element (video : VideoElement)
  deriving DecidableEq

/-- The two closures the plugin creates; `cid` is the closure's identity (a fresh closure
is made by every call of `createVideoElement`), `options` is what it captured. -/
inductive Handler where
  /-- The arrow function of line 121. -/
  | onEnded (cid : Nat) (options : Options)
  /-- The arrow function of line 130. -/
  | onSkip (cid : Nat) (options : Options)
  deriving DecidableEq

/-- One entry of an event target's listener list. -/
structure Registration where
  target : Target
  type : EventType
  handler : Handler
  deriving DecidableEq

/-- Observable effects, in the order they happen. -/
inductive Effect where
  | appendedChild (video : VideoElement)
  | removedChild (video : VideoElement)
  | calledOnEnd
  deriving DecidableEq

/-- Errors a DOM call can raise. -/
inductive DomError where
  | notFound
  deriving DecidableEq

/-- Everything the plugin reads or writes. -/
structure State where
  /-- `let customVideoElement` (line 68). -/
  customVideoElement : Option VideoElement
  /-- `let skipEventListener` (line 69). -/
  skipEventListener : Option Handler
  /-- The plugin's elements among the children of `document.body`, in document order. -/
  body : List VideoElement
  /-- The plugin's listener registrations, in registration order. -/
  listeners : List Registration
  /-- `$gameTemp._customVideoPlaying`. -/
  customVideoPlaying : JSValue
  /-- Instrumentation: the next unused object identity. -/
  nextUid : Nat
  /-- Instrumentation: effects performed so far. -/
  log : List Effect
  deriving DecidableEq

/-- The interpreter object a command runs on (`this`). -/
structure Interpreter where
  waitMode : String
  deriving DecidableEq

/-- What the plugin reads from the host at call time. -/
structure Runtime where
  /-- Truthiness of `Utils.canPlayWebm`. -/
  canPlayWebm : Bool
  deriving DecidableEq

/-- The state when the plugin has just been loaded. -/
def init : State :=
  { customVideoElement := none
    skipEventListener := none
    body := []
    listeners := []
    customVideoPlaying := .undefined
    nextUid := 0
    log := [] }

/-! ## DOM primitives -/

/-- `target.addEventListener(type, handler)`: a registration already present is not
added again. -/
def addEventListener (s : State) (target : Target) (type : EventType) (handler : Handler) :
    State :=
  if (⟨target, type, handler⟩ : Registration) ∈ s.listeners then s
  else { s with listeners := s.listeners ++ [⟨target, type, handler⟩] }

/-- `target.removeEventListener(type, handler)`: removing an absent registration is a
no-op. -/
def removeEventListener (s : State) (target : Target) (type : EventType) (handler : Handler) :
    State :=
  { s with listeners := s.listeners.filter fun r => decide (r ≠ ⟨target, type, handler⟩) }

/-- `document.body.removeChild(child)`: raises `NotFoundError` when `child` is not a
child of the body. -/
def removeChild (s : State) (child : VideoElement) : Except DomError State :=
  if child ∈ s.body then
    .ok { s with body := s.body.erase child, log := s.log ++ [.removedChild child] }
  else .error .notFound

/-- `document.body.appendChild(child)` for a node that is not yet in the document. -/
def appendChild (s : State) (child : VideoElement) : State :=
  { s with body := s.body ++ [child], log := s.log ++ [.appendedChild child] }

/-! ## The plugin -/

/-- `detectVideoExtension` (lines 76-79). -/
def detectVideoExtension (rt : Runtime) : String :=
  if rt.canPlayWebm then ".webm" else ".mp4"

/-- `cleanupAndDestroyVideoElement` (lines 81-94). -/
def cleanupAndDestroyVideoElement (s : State) : Except DomError State :=
  match s.customVideoElement with
  | some video => do
    let s1 :=
      match s.skipEventListener with
      | some listener =>
        let a := removeEventListener s .document .keydown listener
        let b := removeEventListener a (.element video) .mousedown listener
        let c := removeEventListener b (.element video) .touchend listener
        { c with skipEventListener := none }
      | none => s
    let s2 ← if video ∈ s1.body then removeChild s1 video else pure s1
    pure { s2 with customVideoElement := none }
  | none => pure s

/-- `createVideoElement` (lines 96-150), up to and including `customVideoElement = video`.
The promise continuation of `video.play()` only writes `video.style` and is left out. -/
def createVideoElement (s : State) (options : Options) : Except DomError State := do
  let s0 ← if s.customVideoElement.isSome then cleanupAndDestroyVideoElement s else pure s
  let video : VideoElement :=
    { uid := s0.nextUid
      src := options.source
      width := options.width
      height := options.height
      opacity := if options.fade then "0" else "1"
      playbackRate := options.speed
      loop := options.loop }
  let s1 := { s0 with nextUid := s0.nextUid + 1 }
  let s2 := addEventListener s1 (.element video) .ended (.onEnded video.uid options)
  let s3 :=
    if options.skipEnabled then
      let listener := Handler.onSkip video.uid options
      let a := { s2 with skipEventListener := some listener }
      let b := addEventListener a .document .keydown listener
      let c := addEventListener b (.element video) .mousedown listener
      addEventListener c (.element video) .touchend listener
    else s2
  let s4 := appendChild s3 video
  pure { s4 with customVideoElement := some video }

/-- `if (typeof options.onEnd === "function") options.onEnd();`. -/
def callOnEnd (options : Options) (s : State) : State :=
  match options.onEnd with
  | some .clearPlaying =>
    { s with customVideoPlaying := .boolean false, log := s.log ++ [.calledOnEnd] }
  | none => s

/-- Running the body of a registered closure. -/
def Handler.invoke : Handler → State → Except DomError State
  | .onEnded _ options, s =>
    if !options.loop then do
      let s1 ← cleanupAndDestroyVideoElement s
      pure (callOnEnd options s1)
    else pure s
  | .onSkip _ options, s => do
    let s1 ← cleanupAndDestroyVideoElement s
    pure (callOnEnd options s1)

/-- Delivery of one event of type `type` to `target`: the listeners registered for it when
delivery starts run in registration order, each only if it is still registered when its
turn comes. -/
def dispatchEvent (s : State) (target : Target) (type : EventType) : Except DomError State :=
  (s.listeners.filter fun r => decide (r.target = target ∧ r.type = type)).foldlM
    (fun st r => if r ∈ st.listeners then r.handler.invoke st else pure st) s

/-- `Game_Interpreter.prototype.setWaitMode` of the host engine: it stores the mode in
`_waitMode`, the field `updateWaitMode` reads. -/
def setWaitMode (this : Interpreter) (waitMode : String) : Interpreter :=
  { this with waitMode := waitMode }

/-- The handler registered for the `PlayCustomVideo` command (lines 152-190). -/
def playCustomVideo (rt : Runtime) (args : Args) (this : Interpreter) (s : State) :
    Except DomError (Interpreter × State) :=
  let baseName := args.src
  let speed := JSNumber.floatOrOne args.speed
  let waitModeActive := decide (args.wait = "true")
  let fadeEffectEnabled := decide (args.fade = "true")
  let skipAllowed := decide (args.skipEnabled = "true")
  let videoDimensionsWidth := JSNumber.intOrHundred args.width
  let videoDimensionsHeight := JSNumber.intOrHundred args.height
  let loopModeActive := decide (args.loop = "true")
  if waitModeActive && !loopModeActive then do
    let s1 := { s with customVideoPlaying := .boolean true }
    let s2 ← createVideoElement s1
      { source := "movies/" ++ baseName ++ detectVideoExtension rt
        speed := speed
        wait := waitModeActive
        fade := fadeEffectEnabled
        skipEnabled := skipAllowed
        width := videoDimensionsWidth
        height := videoDimensionsHeight
        loop := loopModeActive
        onEnd := some .clearPlaying }
    pure (setWaitMode this "customVideo", s2)
  else do
    let s1 ← createVideoElement s
      { source := "movies/" ++ baseName ++ detectVideoExtension rt
        speed := speed
        wait := waitModeActive
        fade := fadeEffectEnabled
        skipEnabled := skipAllowed
        width := videoDimensionsWidth
        height := videoDimensionsHeight
        loop := loopModeActive
        onEnd := none }
    pure (this, s1)

/-- The patched `Game_Interpreter.prototype.updateWaitMode` (lines 192-198); `original` is
the method captured in `_Game_Interpreter_updateWaitMode` before patching. -/
def updateWaitMode (original : Interpreter → State → JSValue × Interpreter × State)
    (this : Interpreter) (s : State) : JSValue × Interpreter × State :=
  if this.waitMode = "customVideo" then (s.customVideoPlaying, this, s)
  else original this s

/-! ## The host: what can happen to the plugin -/

/-- One thing that can happen to the plugin's state. -/
inductive Action where
  /-- The engine runs `PlayCustomVideo` on interpreter `this`. -/
  | command (this : Interpreter) (args : Args)
  /-- A call of `createVideoElement`. -/
  | create (options : Options)
  /-- A call of `cleanupAndDestroyVideoElement`. -/
  | cleanup
  /-- An event of type `type` is delivered to `target`. -/
  | deliver (target : Target) (type : EventType)
  deriving DecidableEq

/-- The effect of one action on the plugin's state. -/
def step (rt : Runtime) (s : State) : Action → Except DomError State
  | .command this args => do
    let r ← playCustomVideo rt args this s
    pure r.2
  | .create options => createVideoElement s options
  | .cleanup => cleanupAndDestroyVideoElement s
  | .deliver target type => dispatchEvent s target type

/-- A sequence of actions, left to right. -/
def run (rt : Runtime) (s : State) (actions : List Action) : Except DomError State :=
  actions.foldlM (step rt) s

/-- What the host environment delivers to the plugin's listeners. -/
inductive HostEvent where
  /-- A key press: `"keydown"` on the document. -/
  | keyDown
  /-- A pointer press on a video element: `"mousedown"`. -/
  | pointerDown (video : VideoElement)
  /-- The end of a touch on a video element: `"touchend"`. -/
  | touchEnd (video : VideoElement)
  /-- End of stream of a video element: `"ended"`. -/
  | endOfStream (video : VideoElement)
  deriving DecidableEq

/-- Delivery by the host environment: key presses always reach the document; pointer,
touch and end-of-stream events reach a video element only while it is attached to
`document.body` (a detached element is neither pressed nor played). -/
def hostDeliver (s : State) : HostEvent → Except DomError State
  | .keyDown => dispatchEvent s .document .keydown
  | .pointerDown video =>
    if video ∈ s.body then dispatchEvent s (.element video) .mousedown else pure s
  | .touchEnd video =>
    if video ∈ s.body then dispatchEvent s (.element video) .touchend else pure s
  | .endOfStream video =>
    if video ∈ s.body then dispatchEvent s (.element video) .ended else pure s

/-- A sequence of host events, left to right. -/
def hostRun (s : State) (events : List HostEvent) : Except DomError State :=
  events.foldlM hostDeliver s

/-- Whether a host event ends the session of the live overlay `video`, whose skip listeners
are registered exactly when `skip` holds: its end of stream always does, a key press or a
pointer press or touch end on it does when `skip` holds. -/
def endsSession (skip : Bool) (video : VideoElement) : HostEvent → Bool
  | .keyDown => skip
  | .pointerDown w => skip && decide (w = video)
  | .touchEnd w => skip && decide (w = video)
  | .endOfStream w => decide (w = video)

/-! ## Concrete inputs used by the witnesses and counterexamples -/

/-- A runtime in which `Utils.canPlayWebm` is truthy. -/
def webmRuntime : Runtime := ⟨true⟩

/-- An interpreter that is not waiting. -/
def idleInterpreter : Interpreter := ⟨""⟩

/-- The spec's concrete scenario: wait, fade, skip enabled, no loop. -/
def introArgs : Args :=
  { src := "intro", speed := "1.0", wait := "true", fade := "true", skipEnabled := "true",
    width := "100", height := "100", loop := "false" }

/-- A blocking, non-looping video that cannot be skipped. -/
def cutsceneArgs : Args :=
  { src := "cutscene", speed := "1.0", wait := "true", fade := "false",
    skipEnabled := "false", width := "100", height := "100", loop := "false" }

/-- A looping background video that can be skipped, with `wait` left at its default. -/
def loopingArgs : Args :=
  { src := "rain", speed := "1.0", wait := "true", fade := "false", skipEnabled := "true",
    width := "100", height := "100", loop := "true" }

/-- A looping background video that cannot be skipped. -/
def wallpaperArgs : Args :=
  { src := "stars", speed := "1.0", wait := "false", fade := "false",
    skipEnabled := "false", width := "50", height := "50", loop := "true" }

/-- Options for a non-looping overlay with skip enabled and a completion callback. -/
def introOptions : Options :=
  { source := "movies/intro.webm", speed := .floatOrOne "1.0", wait := true, fade := true,
    skipEnabled := true, width := .intOrHundred "100", height := .intOrHundred "100",
    loop := false, onEnd := some .clearPlaying }

/-- Options for a non-looping overlay without skip and without callback. -/
def plainOptions : Options :=
  { source := "movies/plain.webm", speed := .floatOrOne "1.0", wait := false, fade := false,
    skipEnabled := false, width := .intOrHundred "100", height := .intOrHundred "100",
    loop := false, onEnd := none }

/-! ## Vocabulary of the statements -/

/-- The element `createVideoElement` builds for `options` when `uid` is the next identity. -/
def videoFor (uid : Nat) (options : Options) : VideoElement :=
  { uid := uid
    src := options.source
    width := options.width
    height := options.height
    opacity := if options.fade then "0" else "1"
    playbackRate := options.speed
    loop := options.loop }

/-- Every registration for one of the three skip event types, on whatever target. -/
def skipSubscriptions (s : State) : List Registration :=
  s.listeners.filter fun r => decide (r.type ≠ .ended)

/-- The three subscriptions of `listener` for the overlay `video`, in registration order. -/
def skipTriple (video : VideoElement) (listener : Handler) : List Registration :=
  [⟨.document, .keydown, listener⟩, ⟨.element video, .mousedown, listener⟩,
    ⟨.element video, .touchend, listener⟩]

/-- The skip subscriptions that belong to the given values of `customVideoElement` and
`skipEventListener`. -/
def expectedSkip : Option VideoElement → Option Handler → List Registration
  | some video, some listener => skipTriple video listener
  | _, _ => []

/-- The `"ended"` registrations on `video`. -/
def endedOn (s : State) (video : VideoElement) : List Registration :=
  s.listeners.filter fun r => decide (r.target = .element video ∧ r.type = .ended)

/-- The options `video` was created with, read off the closure registered for its
`"ended"` event. -/
def createdWith (s : State) (video : VideoElement) : Option Options :=
  match endedOn s video with
  | ⟨_, _, .onEnded _ options⟩ :: _ => some options
  | _ => none

/-- Number of times an `onEnd` callback has run, that is, the number of writes of `false`
to `$gameTemp._customVideoPlaying`. -/
def clears (s : State) : Nat :=
  s.log.count .calledOnEnd

/-- The state `cleanupAndDestroyVideoElement` returns, in closed form. -/
def torn (s : State) : State :=
  match s.customVideoElement with
  | none => s
  | some video =>
    { customVideoElement := none
      skipEventListener := none
      body := s.body.erase video
      listeners :=
        match s.skipEventListener with
        | none => s.listeners
        | some listener =>
          s.listeners.filter fun r => decide (r ∉ skipTriple video listener)
      customVideoPlaying := s.customVideoPlaying
      nextUid := s.nextUid
      log := if video ∈ s.body then s.log ++ [.removedChild video] else s.log }

/-- What `createVideoElement` does after its teardown prologue. -/
def mount (s0 : State) (options : Options) : State :=
  let video := videoFor s0.nextUid options
  let s1 := { s0 with nextUid := s0.nextUid + 1 }
  let s2 := addEventListener s1 (.element video) .ended (.onEnded video.uid options)
  let s3 :=
    if options.skipEnabled then
      let listener := Handler.onSkip video.uid options
      let a := { s2 with skipEventListener := some listener }
      let b := addEventListener a .document .keydown listener
      let c := addEventListener b (.element video) .mousedown listener
      addEventListener c (.element video) .touchend listener
    else s2
  let s4 := appendChild s3 video
  { s4 with customVideoElement := some video }

/-- The invariant of the reachable states. -/
structure Inv (s : State) : Prop where
  body_eq : s.body = s.customVideoElement.toList
  skip_eq : skipSubscriptions s = expectedSkip s.customVideoElement s.skipEventListener
  no_orphan : s.customVideoElement = none → s.skipEventListener = none
  fresh : ∀ r ∈ s.listeners, ∀ w, r.target = .element w → w.uid < s.nextUid
  ended_unique : ∀ v, endedOn s v = [] ∨
    ∃ o, endedOn s v = [⟨.element v, .ended, .onEnded v.uid o⟩]
  live : ∀ v, s.customVideoElement = some v → ∃ o,
    endedOn s v = [⟨.element v, .ended, .onEnded v.uid o⟩] ∧
      s.skipEventListener = if o.skipEnabled then some (.onSkip v.uid o) else none

/-! ## Closed forms of the embedded functions -/

theorem cleanup_eq (s : State) : cleanupAndDestroyVideoElement s = .ok (torn s) := by
  unfold cleanupAndDestroyVideoElement torn
  cases hv : s.customVideoElement with
  | none => rfl
  | some v =>
    cases hl : s.skipEventListener with
    | none =>
      by_cases hm : v ∈ s.body
      · simp [hm, removeChild, bind, Except.bind, pure, Except.pure, hl]
      · simp [hm, bind, Except.bind, pure, Except.pure, hl, List.erase_of_not_mem hm]
    | some l =>
      have hf : ∀ (a b c : Registration),
          (s.listeners.filter fun r => !decide (r = c) && (!decide (r = b) && !decide (r = a)))
            = s.listeners.filter fun r =>
                !decide (r = a) && (!decide (r = b) && !decide (r = c)) := by
        intro a b c
        congr 1
        funext r
        cases decide (r = a) <;> cases decide (r = b) <;> cases decide (r = c) <;> rfl
      by_cases hm : v ∈ s.body
      · simp [hm, removeChild, removeEventListener, bind, Except.bind, pure, Except.pure,
          skipTriple, hf]
      · simp [hm, removeEventListener, bind, Except.bind, pure, Except.pure, skipTriple, hf,
          List.erase_of_not_mem hm]

theorem torn_of_none {s : State} (h : s.customVideoElement = none) : torn s = s := by
  unfold torn
  rw [h]

theorem create_eq (s : State) (options : Options) :
    createVideoElement s options = .ok (mount (torn s) options) := by
  unfold createVideoElement
  cases hv : s.customVideoElement with
  | none =>
    rw [torn_of_none hv]
    rfl
  | some v =>
    simp only [Option.isSome_some, if_true, cleanup_eq]
    rfl

theorem invoke_ended_eq (cid : Nat) (o : Options) (s : State) :
    (Handler.onEnded cid o).invoke s = .ok (if o.loop then s else callOnEnd o (torn s)) := by
  unfold Handler.invoke
  cases h : o.loop <;> simp [h, cleanup_eq, bind, Except.bind, pure, Except.pure]

theorem invoke_skip_eq (cid : Nat) (o : Options) (s : State) :
    (Handler.onSkip cid o).invoke s = .ok (callOnEnd o (torn s)) := by
  unfold Handler.invoke
  simp [cleanup_eq, bind, Except.bind, pure, Except.pure]

theorem torn_of_some {s : State} {v : VideoElement} (h : s.customVideoElement = some v) :
    torn s =
      { customVideoElement := none
        skipEventListener := none
        body := s.body.erase v
        listeners :=
          match s.skipEventListener with
          | none => s.listeners
          | some listener => s.listeners.filter fun r => decide (r ∉ skipTriple v listener)
        customVideoPlaying := s.customVideoPlaying
        nextUid := s.nextUid
        log := if v ∈ s.body then s.log ++ [.removedChild v] else s.log } := by
  unfold torn
  rw [h]

theorem torn_customVideoElement (s : State) : (torn s).customVideoElement = none := by
  cases h : s.customVideoElement with
  | none => rw [torn_of_none h, h]
  | some v => rw [torn_of_some h]

theorem torn_customVideoPlaying (s : State) :
    (torn s).customVideoPlaying = s.customVideoPlaying := by
  cases h : s.customVideoElement with
  | none => rw [torn_of_none h]
  | some v => rw [torn_of_some h]

theorem torn_nextUid (s : State) : (torn s).nextUid = s.nextUid := by
  cases h : s.customVideoElement with
  | none => rw [torn_of_none h]
  | some v => rw [torn_of_some h]

theorem torn_listeners_subset (s : State) : ∀ r ∈ (torn s).listeners, r ∈ s.listeners := by
  intro r hr
  cases h : s.customVideoElement with
  | none => rwa [torn_of_none h] at hr
  | some v =>
    rw [torn_of_some h] at hr
    cases hl : s.skipEventListener with
    | none => simpa [hl] using hr
    | some l =>
      simp only [hl] at hr
      exact (List.mem_filter.mp hr).1

theorem torn_endedOn (s : State) (w : VideoElement) : endedOn (torn s) w = endedOn s w := by
  cases h : s.customVideoElement with
  | none => rw [torn_of_none h]
  | some v =>
    rw [torn_of_some h]
    cases hl : s.skipEventListener with
    | none => simp [endedOn]
    | some l =>
      simp only [endedOn, List.filter_filter]
      apply List.filter_congr
      intro r _
      by_cases hr : r.target = .element w ∧ r.type = .ended
      · have : r ∉ skipTriple v l := by
          intro hm
          simp only [skipTriple, List.mem_cons, List.mem_singleton, List.not_mem_nil,
            or_false] at hm
          rcases hm with rfl | rfl | rfl <;> simp at hr
        simp [hr, this]
      · simp [hr]

theorem inv_init : Inv init where
  body_eq := rfl
  skip_eq := rfl
  no_orphan := fun _ => rfl
  fresh := by intro r hr; simp [init] at hr
  ended_unique := fun _ => Or.inl rfl
  live := by intro v hv; simp [init] at hv

theorem inv_torn {s : State} (h : Inv s) : Inv (torn s) := by
  cases hv : s.customVideoElement with
  | none => rwa [torn_of_none hv]
  | some v =>
    refine ⟨?_, ?_, ?_, ?_, ?_, ?_⟩
    · have hb := h.body_eq
      rw [hv] at hb
      rw [torn_of_some hv]
      simp [hb]
    · have hs := h.skip_eq
      rw [hv] at hs
      rw [torn_of_some hv]
      cases hl : s.skipEventListener with
      | none =>
        rw [hl] at hs
        simpa [skipSubscriptions, expectedSkip] using hs
      | some l =>
        rw [hl] at hs
        simp only [skipSubscriptions, expectedSkip] at hs ⊢
        rw [List.filter_comm, hs]
        simp
    · intro _
      rw [torn_of_some hv]
    · intro r hr w hw
      rw [torn_nextUid]
      exact h.fresh r (torn_listeners_subset s r hr) w hw
    · intro w
      rw [torn_endedOn]
      exact h.ended_unique w
    · intro w hw
      rw [torn_customVideoElement] at hw
      cases hw

theorem torn_body {s : State} (h : Inv s) : (torn s).body = [] := by
  have := (inv_torn h).body_eq
  rwa [torn_customVideoElement] at this

theorem torn_skipEventListener {s : State} (h : Inv s) : (torn s).skipEventListener = none :=
  (inv_torn h).no_orphan (torn_customVideoElement s)

theorem torn_log {s : State} (h : Inv s) :
    (torn s).log = s.log ++ (s.customVideoElement.toList.map Effect.removedChild) := by
  cases hv : s.customVideoElement with
  | none => rw [torn_of_none hv]; simp
  | some v =>
    have hb := h.body_eq
    rw [hv] at hb
    rw [torn_of_some hv]
    simp [hb]

theorem videoFor_uid (n : Nat) (o : Options) : (videoFor n o).uid = n := rfl

theorem not_mem_of_skip_empty {s : State} (hs : skipSubscriptions s = []) (r : Registration)
    (hr : r.type ≠ .ended) : r ∉ s.listeners := by
  intro hm
  have : r ∈ skipSubscriptions s := by
    simp only [skipSubscriptions, List.mem_filter]
    exact ⟨hm, by simpa using hr⟩
  rw [hs] at this
  cases this

theorem mount_eq {s : State} (h : Inv s) (hv : s.customVideoElement = none) (o : Options) :
    mount s o =
      { customVideoElement := some (videoFor s.nextUid o)
        skipEventListener := if o.skipEnabled then some (.onSkip s.nextUid o) else none
        body := [videoFor s.nextUid o]
        listeners :=
          s.listeners ++
            (⟨.element (videoFor s.nextUid o), .ended, .onEnded s.nextUid o⟩ ::
              if o.skipEnabled then skipTriple (videoFor s.nextUid o) (.onSkip s.nextUid o)
              else [])
        customVideoPlaying := s.customVideoPlaying
        nextUid := s.nextUid + 1
        log := s.log ++ [.appendedChild (videoFor s.nextUid o)] } := by
  have hl : s.skipEventListener = none := h.no_orphan hv
  have hb : s.body = [] := by rw [h.body_eq, hv]; rfl
  have hs : skipSubscriptions s = [] := by rw [h.skip_eq, hv]; rfl
  have hE : (⟨.element (videoFor s.nextUid o), .ended, .onEnded s.nextUid o⟩ : Registration)
      ∉ s.listeners := by
    intro hm
    have := h.fresh _ hm (videoFor s.nextUid o) rfl
    simp [videoFor_uid] at this
  have hK := not_mem_of_skip_empty hs ⟨.document, .keydown, .onSkip s.nextUid o⟩ (by simp)
  have hM := not_mem_of_skip_empty hs
    ⟨.element (videoFor s.nextUid o), .mousedown, .onSkip s.nextUid o⟩ (by simp)
  have hT := not_mem_of_skip_empty hs
    ⟨.element (videoFor s.nextUid o), .touchend, .onSkip s.nextUid o⟩ (by simp)
  cases hk : o.skipEnabled
  · simp [mount, addEventListener, appendChild, hE, hk, hl, hb, videoFor_uid, hv]
  · simp [mount, addEventListener, appendChild, hE, hK, hM, hT, hk, hb, videoFor_uid,
      skipTriple, hv]

theorem mount_endedOn {s : State} (h : Inv s) (hv : s.customVideoElement = none)
    (o : Options) :
    endedOn (mount s o) (videoFor s.nextUid o) =
      [⟨.element (videoFor s.nextUid o), .ended, .onEnded s.nextUid o⟩] := by
  have hfr2 : s.listeners.filter
      (fun r => decide (r.target = .element (videoFor s.nextUid o) ∧ r.type = .ended)) = [] := by
    simp only [List.filter_eq_nil_iff]
    intro r hr hd
    have hd2 := of_decide_eq_true hd
    have := h.fresh r hr (videoFor s.nextUid o) hd2.1
    simp [videoFor_uid] at this
  have hB : ∀ a ∈ s.listeners,
      a.target = Target.element (videoFor s.nextUid o) → ¬a.type = EventType.ended := by
    simpa using hfr2
  rw [mount_eq h hv o]
  cases hk : o.skipEnabled <;>
    simpa [endedOn, List.filter_cons, skipTriple, videoFor_uid] using hB

theorem mount_endedOn_other {s : State} (h : Inv s) (hv : s.customVideoElement = none)
    (o : Options) {v : VideoElement} (hne : v ≠ videoFor s.nextUid o) :
    endedOn (mount s o) v = endedOn s v := by
  have hne2 : ¬videoFor s.nextUid o = v := fun e => hne e.symm
  rw [mount_eq h hv o]
  cases hk : o.skipEnabled <;>
    simp [endedOn, List.filter_append, List.filter_cons, skipTriple, hne2]

theorem inv_mount {s : State} (h : Inv s) (hv : s.customVideoElement = none) (o : Options) :
    Inv (mount s o) := by
  have hother := fun (v : VideoElement) (hne : v ≠ videoFor s.nextUid o) =>
    mount_endedOn_other h hv o hne
  have hnew := mount_endedOn h hv o
  have hs : skipSubscriptions s = [] := by rw [h.skip_eq, hv]; rfl
  have hs2 : s.listeners.filter (fun r => decide (r.type ≠ .ended)) = [] := hs
  have hfr : endedOn s (videoFor s.nextUid o) = [] := by
    simp only [endedOn, List.filter_eq_nil_iff]
    intro r hr hd
    have hd2 := of_decide_eq_true hd
    have := h.fresh r hr (videoFor s.nextUid o) hd2.1
    simp [videoFor_uid] at this
  have hfr2 : s.listeners.filter
      (fun r => decide (r.target = .element (videoFor s.nextUid o) ∧ r.type = .ended)) = [] := hfr
  rw [mount_eq h hv o] at hother hnew ⊢
  refine ⟨rfl, ?_, ?_, ?_, ?_, ?_⟩
  · have hA : ∀ a ∈ s.listeners, a.type = EventType.ended := by simpa using hs2
    cases hk : o.skipEnabled <;>
      simpa [skipSubscriptions, expectedSkip, skipTriple, List.filter_cons] using hA
  · intro hc
    cases hc
  · intro r hr w hw
    simp only [List.mem_append, List.mem_cons] at hr
    rcases hr with hr | rfl | hr
    · exact Nat.lt_succ_of_lt (h.fresh r hr w hw)
    · simp only [Target.element.injEq] at hw
      subst hw
      simp [videoFor_uid]
    · cases hk : o.skipEnabled
      · simp [hk] at hr
      · simp only [hk, if_true, skipTriple, List.mem_cons, List.mem_singleton,
          List.not_mem_nil, or_false] at hr
        rcases hr with rfl | rfl | rfl
        · cases hw
        · simp only [Target.element.injEq] at hw
          subst hw
          simp [videoFor_uid]
        · simp only [Target.element.injEq] at hw
          subst hw
          simp [videoFor_uid]
  · intro v
    by_cases hne : v = videoFor s.nextUid o
    · subst hne
      exact Or.inr ⟨o, hnew⟩
    · rw [hother v hne]
      exact h.ended_unique v
  · intro v hvv
    simp only [Option.some.injEq] at hvv
    subst hvv
    refine ⟨o, ?_, ?_⟩
    · have hB : ∀ a ∈ s.listeners,
          a.target = Target.element (videoFor s.nextUid o) → ¬a.type = EventType.ended := by
        simpa using hfr2
      cases hk : o.skipEnabled <;>
        simpa [endedOn, List.filter_cons, skipTriple, videoFor_uid] using hB
    · simp [videoFor_uid]

theorem inv_callOnEnd {s : State} (h : Inv s) (o : Options) : Inv (callOnEnd o s) := by
  unfold callOnEnd
  cases ho : o.onEnd with
  | none => exact h
  | some c =>
    cases c
    exact ⟨h.body_eq, h.skip_eq, h.no_orphan, h.fresh, h.ended_unique, h.live⟩

/-! ## Event delivery in a state satisfying the invariant -/

theorem matching_skip {s : State} (h : Inv s) (t : Target) (ty : EventType)
    (hty : ty ≠ .ended) :
    (s.listeners.filter fun r => decide (r.target = t ∧ r.type = ty)) =
      (expectedSkip s.customVideoElement s.skipEventListener).filter
        fun r => decide (r.target = t ∧ r.type = ty) := by
  rw [← h.skip_eq, skipSubscriptions, List.filter_filter]
  apply List.filter_congr
  intro r _
  by_cases hr : r.target = t ∧ r.type = ty
  · have : r.type ≠ .ended := by rw [hr.2]; exact hty
    simp [hr, hty]
  · simp [hr]

theorem mem_listeners_of_triple {s : State} (h : Inv s) {v : VideoElement} {l : Handler}
    (hv : s.customVideoElement = some v) (hl : s.skipEventListener = some l)
    {r : Registration} (hr : r ∈ skipTriple v l) : r ∈ s.listeners := by
  have hs := h.skip_eq
  rw [hv, hl] at hs
  have : r ∈ skipSubscriptions s := by rw [hs]; exact hr
  exact (List.mem_filter.mp this).1

theorem dispatch_skip_fire {s : State} (h : Inv s) {v : VideoElement} {l : Handler}
    (hv : s.customVideoElement = some v) (hl : s.skipEventListener = some l)
    (t : Target) (ty : EventType) (hm : (⟨t, ty, l⟩ : Registration) ∈ skipTriple v l) :
    dispatchEvent s t ty = l.invoke s := by
  have hmem := mem_listeners_of_triple h hv hl hm
  have hty : ty ≠ .ended := by
    simp only [skipTriple, List.mem_cons, List.mem_singleton, List.not_mem_nil, or_false,
      Registration.mk.injEq] at hm
    rcases hm with ⟨_, rfl, _⟩ | ⟨_, rfl, _⟩ | ⟨_, rfl, _⟩ <;> simp
  have hf : (s.listeners.filter fun r => decide (r.target = t ∧ r.type = ty)) =
      [⟨t, ty, l⟩] := by
    rw [matching_skip h t ty hty, hv, hl]
    simp only [skipTriple, List.mem_cons, List.mem_singleton, List.not_mem_nil, or_false,
      Registration.mk.injEq] at hm
    rcases hm with ⟨rfl, rfl, _⟩ | ⟨rfl, rfl, _⟩ | ⟨rfl, rfl, _⟩ <;>
      simp [expectedSkip, skipTriple, List.filter_cons]
  unfold dispatchEvent
  rw [hf]
  simp [List.foldlM, hmem, bind, Except.bind]
  cases l.invoke s <;> rfl

theorem dispatch_skip_quiet {s : State} (h : Inv s) (t : Target) (ty : EventType)
    (hty : ty ≠ .ended)
    (hn : ∀ v l, s.customVideoElement = some v → s.skipEventListener = some l →
      (⟨t, ty, l⟩ : Registration) ∉ skipTriple v l) :
    dispatchEvent s t ty = .ok s := by
  have hf : (s.listeners.filter fun r => decide (r.target = t ∧ r.type = ty)) = [] := by
    rw [matching_skip h t ty hty]
    cases hv : s.customVideoElement with
    | none => simp [expectedSkip]
    | some v =>
      cases hl : s.skipEventListener with
      | none => simp [expectedSkip]
      | some l =>
        have := hn v l hv hl
        simp only [expectedSkip, List.filter_eq_nil_iff]
        intro r hr hd
        have hd2 := of_decide_eq_true hd
        apply this
        have hh : r.handler = l := by
          simp only [skipTriple, List.mem_cons, List.mem_singleton, List.not_mem_nil,
            or_false] at hr
          rcases hr with rfl | rfl | rfl <;> rfl
        have : r = ⟨t, ty, l⟩ := by
          cases r
          simp only [Registration.mk.injEq]
          exact ⟨hd2.1, hd2.2, hh⟩
        rw [← this]
        exact hr
  unfold dispatchEvent
  rw [hf]
  rfl

theorem dispatch_ended_live {s : State} {v : VideoElement} {o : Options}
    (ho : endedOn s v = [⟨.element v, .ended, .onEnded v.uid o⟩]) :
    dispatchEvent s (.element v) .ended =
      .ok (if o.loop then s else callOnEnd o (torn s)) := by
  have hmem : (⟨.element v, .ended, .onEnded v.uid o⟩ : Registration) ∈ s.listeners := by
    have : (⟨.element v, .ended, .onEnded v.uid o⟩ : Registration) ∈ endedOn s v := by
      rw [ho]; exact List.mem_singleton.mpr rfl
    exact (List.mem_filter.mp this).1
  unfold dispatchEvent
  have ho2 : (s.listeners.filter fun r => decide (r.target = .element v ∧ r.type = .ended))
      = [⟨.element v, .ended, .onEnded v.uid o⟩] := ho
  rw [ho2]
  simp [List.foldlM, hmem, bind, Except.bind, invoke_ended_eq]
  rfl

/-! ## Every action preserves the invariant and never raises -/

theorem invoke_inv {s : State} (h : Inv s) (hd : Handler) :
    ∃ s1, hd.invoke s = .ok s1 ∧ Inv s1 := by
  cases hd with
  | onEnded cid o =>
    refine ⟨_, invoke_ended_eq cid o s, ?_⟩
    cases o.loop
    · exact inv_callOnEnd (inv_torn h) o
    · exact h
  | onSkip cid o => exact ⟨_, invoke_skip_eq cid o s, inv_callOnEnd (inv_torn h) o⟩

theorem fold_inv (rs : List Registration) :
    ∀ {s : State}, Inv s →
      ∃ s1, rs.foldlM (fun st r => if r ∈ st.listeners then r.handler.invoke st else pure st)
        s = .ok s1 ∧ Inv s1 := by
  induction rs with
  | nil => intro s h; exact ⟨s, rfl, h⟩
  | cons r rs ih =>
    intro s h
    by_cases hr : r ∈ s.listeners
    · obtain ⟨s1, h1, hi1⟩ := invoke_inv h r.handler
      obtain ⟨s2, h2, hi2⟩ := ih hi1
      refine ⟨s2, ?_, hi2⟩
      simp only [List.foldlM, hr, if_true, h1, bind, Except.bind]
      exact h2
    · obtain ⟨s2, h2, hi2⟩ := ih h
      refine ⟨s2, ?_, hi2⟩
      simp only [List.foldlM, hr, if_false, bind, Except.bind, pure, Except.pure]
      exact h2

theorem dispatch_inv {s : State} (h : Inv s) (t : Target) (ty : EventType) :
    ∃ s1, dispatchEvent s t ty = .ok s1 ∧ Inv s1 :=
  fold_inv _ h

/-- The options the command handler builds from its arguments. -/
theorem command_eq (rt : Runtime) (args : Args) (this : Interpreter) (s : State) :
    playCustomVideo rt args this s =
      if args.wait = "true" ∧ args.loop ≠ "true" then
        .ok (setWaitMode this "customVideo",
          mount (torn { s with customVideoPlaying := .boolean true })
            { source := "movies/" ++ args.src ++ detectVideoExtension rt
              speed := .floatOrOne args.speed
              wait := decide (args.wait = "true")
              fade := decide (args.fade = "true")
              skipEnabled := decide (args.skipEnabled = "true")
              width := .intOrHundred args.width
              height := .intOrHundred args.height
              loop := decide (args.loop = "true")
              onEnd := some .clearPlaying })
      else
        .ok (this,
          mount (torn s)
            { source := "movies/" ++ args.src ++ detectVideoExtension rt
              speed := .floatOrOne args.speed
              wait := decide (args.wait = "true")
              fade := decide (args.fade = "true")
              skipEnabled := decide (args.skipEnabled = "true")
              width := .intOrHundred args.width
              height := .intOrHundred args.height
              loop := decide (args.loop = "true")
              onEnd := none }) := by
  unfold playCustomVideo
  by_cases hw : args.wait = "true" <;> by_cases hl : args.loop = "true" <;>
    simp [hw, hl, create_eq, bind, Except.bind, pure, Except.pure]

theorem inv_setPlaying {s : State} (h : Inv s) (b : JSValue) :
    Inv { s with customVideoPlaying := b } :=
  ⟨h.body_eq, h.skip_eq, h.no_orphan, h.fresh, h.ended_unique, h.live⟩

theorem step_inv (rt : Runtime) {s : State} (h : Inv s) (a : Action) :
    ∃ s1, step rt s a = .ok s1 ∧ Inv s1 := by
  cases a with
  | command this args =>
    simp only [step]
    rw [command_eq]
    by_cases hc : args.wait = "true" ∧ args.loop ≠ "true"
    · rw [if_pos hc]
      exact ⟨_, rfl, inv_mount (inv_torn (inv_setPlaying h _)) (torn_customVideoElement _) _⟩
    · rw [if_neg hc]
      exact ⟨_, rfl, inv_mount (inv_torn h) (torn_customVideoElement _) _⟩
  | create o =>
    exact ⟨_, create_eq s o, inv_mount (inv_torn h) (torn_customVideoElement _) _⟩
  | cleanup => exact ⟨_, cleanup_eq s, inv_torn h⟩
  | deliver t ty => exact dispatch_inv h t ty

theorem run_inv (rt : Runtime) (acts : List Action) :
    ∀ {s : State}, Inv s → ∃ s1, run rt s acts = .ok s1 ∧ Inv s1 := by
  induction acts with
  | nil => intro s h; exact ⟨s, rfl, h⟩
  | cons a acts ih =>
    intro s h
    obtain ⟨s1, h1, hi1⟩ := step_inv rt h a
    obtain ⟨s2, h2, hi2⟩ := ih hi1
    refine ⟨s2, ?_, hi2⟩
    simp only [run, List.foldlM, h1, bind, Except.bind]
    exact h2

theorem reachable_inv (rt : Runtime) (acts : List Action) :
    ∃ s, run rt init acts = .ok s ∧ Inv s :=
  run_inv rt acts inv_init

/-! ## What `createVideoElement` never touches -/

theorem addEventListener_customVideoPlaying (s : State) (t : Target) (ty : EventType)
    (h : Handler) : (addEventListener s t ty h).customVideoPlaying = s.customVideoPlaying := by
  unfold addEventListener
  split <;> rfl

theorem addEventListener_log (s : State) (t : Target) (ty : EventType) (h : Handler) :
    (addEventListener s t ty h).log = s.log := by
  unfold addEventListener
  split <;> rfl

theorem mount_customVideoPlaying (s : State) (o : Options) :
    (mount s o).customVideoPlaying = s.customVideoPlaying := by
  unfold mount
  cases o.skipEnabled <;> simp [appendChild, addEventListener_customVideoPlaying]

theorem mount_log (s : State) (o : Options) :
    (mount s o).log = s.log ++ [.appendedChild (videoFor s.nextUid o)] := by
  unfold mount
  cases o.skipEnabled <;> simp [appendChild, addEventListener_log]

theorem torn_clears (s : State) : clears (torn s) = clears s := by
  cases h : s.customVideoElement with
  | none => rw [torn_of_none h]
  | some v =>
    rw [torn_of_some h]
    by_cases hm : v ∈ s.body <;> simp [clears, hm, List.count_append]

/-! ## The state right after a creation, and the live overlay of a reachable state -/

theorem createdWith_of_endedOn {s : State} {v : VideoElement} {o : Options}
    (h : endedOn s v = [⟨.element v, .ended, .onEnded v.uid o⟩]) : createdWith s v = some o := by
  unfold createdWith
  rw [h]

theorem live_options {s : State} (hi : Inv s) {v : VideoElement} {o : Options}
    (hv : s.customVideoElement = some v) (hc : createdWith s v = some o) :
    endedOn s v = [⟨.element v, .ended, .onEnded v.uid o⟩] ∧
      s.skipEventListener = if o.skipEnabled then some (.onSkip v.uid o) else none := by
  obtain ⟨o1, h1, h2⟩ := hi.live v hv
  have : createdWith s v = some o1 := createdWith_of_endedOn h1
  rw [hc] at this
  cases this
  exact ⟨h1, h2⟩

theorem after_create {s : State} (hi : Inv s) (o : Options) :
    ∃ s1, createVideoElement s o = .ok s1 ∧ Inv s1 ∧
      s1.customVideoElement = some (videoFor s.nextUid o) ∧
      s1.body = [videoFor s.nextUid o] ∧
      endedOn s1 (videoFor s.nextUid o) =
        [⟨.element (videoFor s.nextUid o), .ended, .onEnded s.nextUid o⟩] ∧
      s1.skipEventListener = (if o.skipEnabled then some (.onSkip s.nextUid o) else none) ∧
      s1.customVideoPlaying = s.customVideoPlaying ∧
      s1.log = s.log ++ s.customVideoElement.toList.map Effect.removedChild ++
        [.appendedChild (videoFor s.nextUid o)] := by
  have ht := inv_torn hi
  have hc := torn_customVideoElement s
  have hm := mount_eq ht hc o
  have he := mount_endedOn ht hc o
  rw [torn_nextUid] at hm he
  refine ⟨mount (torn s) o, create_eq s o, inv_mount ht hc o, ?_, ?_, he, ?_, ?_, ?_⟩
  · rw [hm]
  · rw [hm]
  · rw [hm]
  · rw [mount_customVideoPlaying, torn_customVideoPlaying]
  · rw [mount_log, torn_log hi, torn_nextUid]

theorem endedOn_of_createdWith {s : State} (hi : Inv s) {v : VideoElement} {o : Options}
    (hc : createdWith s v = some o) :
    endedOn s v = [⟨.element v, .ended, .onEnded v.uid o⟩] := by
  rcases hi.ended_unique v with h0 | ⟨o1, h1⟩
  · simp [createdWith, h0] at hc
  · have : createdWith s v = some o1 := createdWith_of_endedOn h1
    rw [hc] at this
    cases this
    exact h1

theorem ended_outcome_any {s : State} (hi : Inv s) {v : VideoElement} {o : Options}
    (he : endedOn s v = [⟨.element v, .ended, .onEnded v.uid o⟩]) :
    ∃ s2, dispatchEvent s (.element v) .ended = .ok s2 ∧ Inv s2 ∧
      (o.loop = false →
        s2.customVideoElement = none ∧ s2.skipEventListener = none ∧ s2.body = [] ∧
        s2.log = s.log ++ s.customVideoElement.toList.map Effect.removedChild ++
          o.onEnd.toList.map (fun _ => Effect.calledOnEnd) ∧
        (o.onEnd ≠ none → s2.customVideoPlaying = .boolean false) ∧
        (o.onEnd = none → s2.customVideoPlaying = s.customVideoPlaying)) ∧
      (o.loop = true → s2 = s) := by
  have hd := dispatch_ended_live he
  cases hl : o.loop
  · rw [hl] at hd
    refine ⟨_, hd, inv_callOnEnd (inv_torn hi) o, fun _ => ?_, fun hc => by cases hc⟩
    have hlog := torn_log hi
    cases ho : o.onEnd with
    | none =>
      simp [callOnEnd, ho, torn_customVideoElement, torn_skipEventListener hi, torn_body hi,
        hlog, torn_customVideoPlaying]
    | some c =>
      cases c
      simp [callOnEnd, ho, torn_customVideoElement, torn_skipEventListener hi, torn_body hi,
        hlog]
  · rw [hl] at hd
    exact ⟨s, hd, hi, fun hc => (by cases hc), fun _ => rfl⟩

theorem ended_outcome {s : State} (hi : Inv s) {v : VideoElement} {o : Options}
    (hv : s.customVideoElement = some v)
    (he : endedOn s v = [⟨.element v, .ended, .onEnded v.uid o⟩]) :
    ∃ s2, dispatchEvent s (.element v) .ended = .ok s2 ∧ Inv s2 ∧
      (o.loop = false →
        s2.customVideoElement = none ∧ s2.skipEventListener = none ∧ s2.body = [] ∧
        s2.log = s.log ++ .removedChild v :: o.onEnd.toList.map (fun _ => Effect.calledOnEnd) ∧
        (o.onEnd ≠ none → s2.customVideoPlaying = .boolean false) ∧
        (o.onEnd = none → s2.customVideoPlaying = s.customVideoPlaying)) ∧
      (o.loop = true → s2 = s) := by
  obtain ⟨s2, h2, hi2, hA, hB⟩ := ended_outcome_any hi he
  refine ⟨s2, h2, hi2, fun hl => ?_, hB⟩
  obtain ⟨a, b, c, d, e, f⟩ := hA hl
  refine ⟨a, b, c, ?_, e, f⟩
  rw [d, hv]
  simp

theorem skip_outcome {s : State} (hi : Inv s) {v : VideoElement} {o : Options} {cid : Nat}
    (hv : s.customVideoElement = some v) (hl : s.skipEventListener = some (.onSkip cid o))
    (t : Target) (ty : EventType)
    (hm : (⟨t, ty, .onSkip cid o⟩ : Registration) ∈ skipTriple v (.onSkip cid o)) :
    ∃ s2, dispatchEvent s t ty = .ok s2 ∧ Inv s2 ∧
      s2.customVideoElement = none ∧ s2.skipEventListener = none ∧ s2.body = [] ∧
      s2.log = s.log ++ .removedChild v :: o.onEnd.toList.map (fun _ => Effect.calledOnEnd) ∧
      (o.onEnd ≠ none → s2.customVideoPlaying = .boolean false) ∧
      (o.onEnd = none → s2.customVideoPlaying = s.customVideoPlaying) := by
  have hd := dispatch_skip_fire hi hv hl t ty hm
  rw [invoke_skip_eq] at hd
  refine ⟨_, hd, inv_callOnEnd (inv_torn hi) o, ?_⟩
  have hlog := torn_log hi
  rw [hv] at hlog
  cases ho : o.onEnd with
  | none =>
    simp [callOnEnd, ho, torn_customVideoElement, torn_skipEventListener hi, torn_body hi,
      hlog, torn_customVideoPlaying]
  | some c =>
    cases c
    simp [callOnEnd, ho, torn_customVideoElement, torn_skipEventListener hi, torn_body hi,
      hlog]

theorem input_quiet {s : State} (hi : Inv s) (hl : s.skipEventListener = none)
    (t : Target) (ty : EventType) (hty : ty ≠ .ended) : dispatchEvent s t ty = .ok s := by
  apply dispatch_skip_quiet hi t ty hty
  intro v l _ hl2
  rw [hl] at hl2
  cases hl2

/-! ## Host events -/

theorem mem_body_live {s : State} (hi : Inv s) {v w : VideoElement}
    (hv : s.customVideoElement = some v) (hw : w ∈ s.body) : w = v := by
  have hb := hi.body_eq
  rw [hv] at hb
  rw [hb] at hw
  exact List.mem_singleton.mp hw

theorem host_inert {s : State} (hi : Inv s) {v : VideoElement} {o : Options}
    (hv : s.customVideoElement = some v)
    (he : endedOn s v = [⟨.element v, .ended, .onEnded v.uid o⟩]) (e : HostEvent)
    (hk : e ≠ .endOfStream v → endsSession true v e = true → s.skipEventListener = none)
    (hn : e = .endOfStream v → o.loop = true) : hostDeliver s e = .ok s := by
  cases e with
  | keyDown => exact input_quiet hi (hk (by simp) rfl) _ _ (by simp)
  | pointerDown w =>
    simp only [hostDeliver]
    by_cases hm : w ∈ s.body
    · rw [if_pos hm]
      have hw := mem_body_live hi hv hm
      exact input_quiet hi (hk (by simp) (by simp [endsSession, hw])) _ _ (by simp)
    · rw [if_neg hm]
      rfl
  | touchEnd w =>
    simp only [hostDeliver]
    by_cases hm : w ∈ s.body
    · rw [if_pos hm]
      have hw := mem_body_live hi hv hm
      exact input_quiet hi (hk (by simp) (by simp [endsSession, hw])) _ _ (by simp)
    · rw [if_neg hm]
      rfl
  | endOfStream w =>
    simp only [hostDeliver]
    by_cases hm : w ∈ s.body
    · rw [if_pos hm]
      have hw := mem_body_live hi hv hm
      subst hw
      obtain ⟨s2, h2, _, _, hB⟩ := ended_outcome hi hv he
      rw [h2, hB (hn rfl)]
    · rw [if_neg hm]
      rfl

theorem host_dead {s : State} (hi : Inv s) (hv : s.customVideoElement = none)
    (e : HostEvent) : hostDeliver s e = .ok s := by
  have hb : s.body = [] := by rw [hi.body_eq, hv]; rfl
  cases e with
  | keyDown => exact input_quiet hi (hi.no_orphan hv) _ _ (by simp)
  | pointerDown w => simp [hostDeliver, hb, pure, Except.pure]
  | touchEnd w => simp [hostDeliver, hb, pure, Except.pure]
  | endOfStream w => simp [hostDeliver, hb, pure, Except.pure]

theorem hostRun_fixed {s : State} (evs : List HostEvent)
    (h : ∀ e ∈ evs, hostDeliver s e = .ok s) : hostRun s evs = .ok s := by
  induction evs with
  | nil => rfl
  | cons e evs ih =>
    have h1 := h e (List.mem_cons_self _ _)
    simp only [hostRun, List.foldlM, h1, bind, Except.bind]
    exact ih fun e2 he2 => h e2 (List.mem_cons_of_mem _ he2)

theorem hostRun_append (s : State) (a b : List HostEvent) :
    hostRun s (a ++ b) = (hostRun s a).bind fun s1 => hostRun s1 b := by
  simp only [hostRun, List.foldlM_append]
  rfl

theorem host_end {s : State} (hi : Inv s) {v : VideoElement} {o : Options}
    (hv : s.customVideoElement = some v)
    (he : endedOn s v = [⟨.element v, .ended, .onEnded v.uid o⟩])
    (hsel : s.skipEventListener = if o.skipEnabled then some (.onSkip v.uid o) else none)
    (hloop : o.loop = false) (e : HostEvent) (hend : endsSession o.skipEnabled v e = true) :
    ∃ s2, hostDeliver s e = .ok s2 ∧ Inv s2 ∧
      s2.customVideoElement = none ∧ s2.skipEventListener = none ∧ s2.body = [] ∧
      s2.log = s.log ++ .removedChild v :: o.onEnd.toList.map (fun _ => Effect.calledOnEnd) ∧
      (o.onEnd ≠ none → s2.customVideoPlaying = .boolean false) ∧
      (o.onEnd = none → s2.customVideoPlaying = s.customVideoPlaying) := by
  have hb : s.body = [v] := by rw [hi.body_eq, hv]; rfl
  cases e with
  | keyDown =>
    simp only [endsSession] at hend
    rw [hend] at hsel
    exact skip_outcome hi hv hsel .document .keydown (by simp [skipTriple])
  | pointerDown w =>
    simp only [endsSession, Bool.and_eq_true, decide_eq_true_eq] at hend
    obtain ⟨hk, rfl⟩ := hend
    rw [hk] at hsel
    simp only [hostDeliver, hb, List.mem_singleton, if_true]
    exact skip_outcome hi hv hsel _ .mousedown (by simp [skipTriple])
  | touchEnd w =>
    simp only [endsSession, Bool.and_eq_true, decide_eq_true_eq] at hend
    obtain ⟨hk, rfl⟩ := hend
    rw [hk] at hsel
    simp only [hostDeliver, hb, List.mem_singleton, if_true]
    exact skip_outcome hi hv hsel _ .touchend (by simp [skipTriple])
  | endOfStream w =>
    simp only [endsSession, decide_eq_true_eq] at hend
    subst hend
    simp only [hostDeliver, hb, List.mem_singleton, if_true]
    obtain ⟨s2, h2, hi2, hA, _⟩ := ended_outcome hi hv he
    exact ⟨s2, h2, hi2, hA hloop⟩

/-- The state a command leaves behind, from a state satisfying the invariant. -/
theorem after_command (rt : Runtime) (args : Args) (this : Interpreter) {s : State}
    (hi : Inv s) :
    ∃ this1 s1 o, playCustomVideo rt args this s = .ok (this1, s1) ∧ Inv s1 ∧
      s1.customVideoElement = some (videoFor s.nextUid o) ∧
      endedOn s1 (videoFor s.nextUid o) =
        [⟨.element (videoFor s.nextUid o), .ended, .onEnded s.nextUid o⟩] ∧
      s1.skipEventListener = (if o.skipEnabled then some (.onSkip s.nextUid o) else none) ∧
      o.skipEnabled = decide (args.skipEnabled = "true") ∧
      o.loop = decide (args.loop = "true") ∧
      ((args.wait = "true" ∧ args.loop ≠ "true") →
        o.onEnd = some .clearPlaying ∧ s1.customVideoPlaying = .boolean true) ∧
      (¬(args.wait = "true" ∧ args.loop ≠ "true") →
        o.onEnd = none ∧ s1.customVideoPlaying = s.customVideoPlaying) := by
  have hcmd := command_eq rt args this s
  by_cases hc : args.wait = "true" ∧ args.loop ≠ "true"
  · rw [if_pos hc] at hcmd
    have hi0 : Inv { s with customVideoPlaying := .boolean true } := inv_setPlaying hi _
    obtain ⟨s1, h1, hi1, hcv, _, he, hsel, hfl, _⟩ := after_create hi0
      { source := "movies/" ++ args.src ++ detectVideoExtension rt
        speed := .floatOrOne args.speed
        wait := decide (args.wait = "true")
        fade := decide (args.fade = "true")
        skipEnabled := decide (args.skipEnabled = "true")
        width := .intOrHundred args.width
        height := .intOrHundred args.height
        loop := decide (args.loop = "true")
        onEnd := some .clearPlaying }
    rw [create_eq] at h1
    cases h1
    exact ⟨_, _, _, hcmd, hi1, hcv, he, hsel, rfl, rfl, fun _ => ⟨rfl, hfl⟩,
      fun hn => absurd hc hn⟩
  · rw [if_neg hc] at hcmd
    obtain ⟨s1, h1, hi1, hcv, _, he, hsel, hfl, _⟩ := after_create hi
      { source := "movies/" ++ args.src ++ detectVideoExtension rt
        speed := .floatOrOne args.speed
        wait := decide (args.wait = "true")
        fade := decide (args.fade = "true")
        skipEnabled := decide (args.skipEnabled = "true")
        width := .intOrHundred args.width
        height := .intOrHundred args.height
        loop := decide (args.loop = "true")
        onEnd := none }
    rw [create_eq] at h1
    cases h1
    exact ⟨_, _, _, hcmd, hi1, hcv, he, hsel, rfl, rfl, fun hp => absurd hp hc,
      fun _ => ⟨rfl, hfl⟩⟩

theorem create_keeps_flag (s : State) (o : Options) :
    ∃ s1, createVideoElement s o = .ok s1 ∧
      s1.customVideoPlaying = s.customVideoPlaying ∧ clears s1 = clears s := by
  refine ⟨mount (torn s) o, create_eq s o, ?_, ?_⟩
  · rw [mount_customVideoPlaying, torn_customVideoPlaying]
  · have : clears (mount (torn s) o) = clears (torn s) := by
      simp [clears, mount_log, List.count_append]
    rw [this, torn_clears]

/-! ## The claims -/

/-- C8. The patched `updateWaitMode` returns the blocking flag and changes nothing when the
wait mode is `"customVideo"`, and is the original method for every other wait mode. -/
theorem updateWaitMode_bridge
    (original : Interpreter → State → JSValue × Interpreter × State)
    (this : Interpreter) (s : State) :
    (this.waitMode = "customVideo" →
      updateWaitMode original this s = (s.customVideoPlaying, this, s)) ∧
    (this.waitMode ≠ "customVideo" →
      updateWaitMode original this s = original this s) := by
  unfold updateWaitMode
  constructor
  · intro h
    rw [if_pos h]
  · intro h
    rw [if_neg h]

/-- Witness for C8: with an original method that clears the wait mode and reports "not
waiting", an interpreter in wait mode `"message"` is handled by the original, and one in
wait mode `"customVideo"` gets the flag. -/
theorem updateWaitMode_bridge_witness :
    ((⟨"customVideo"⟩ : Interpreter).waitMode = "customVideo" ∧
      updateWaitMode (fun _ st => (.boolean false, ⟨""⟩, st)) ⟨"customVideo"⟩ init =
        (.undefined, ⟨"customVideo"⟩, init)) ∧
    ((⟨"message"⟩ : Interpreter).waitMode ≠ "customVideo" ∧
      updateWaitMode (fun _ st => (.boolean false, ⟨""⟩, st)) ⟨"message"⟩ init =
        (.boolean false, ⟨""⟩, init)) :=
  ⟨⟨rfl, (updateWaitMode_bridge (fun _ st => (.boolean false, ⟨""⟩, st))
      ⟨"customVideo"⟩ init).1 rfl⟩,
    ⟨by decide, (updateWaitMode_bridge (fun _ st => (.boolean false, ⟨""⟩, st))
      ⟨"message"⟩ init).2 (by decide)⟩⟩

/-- C4. End-of-stream handling, in every reachable state.  (a) `createVideoElement` returns
with the new element live, in the body and carrying the given options; delivering `"ended"`
to it returns, and: when `loop` is false the overlay is out of the body, `customVideoElement`
is null, and the effects are the removal followed by one call of `onEnd` if it is a function
(the flag is then `false`; it is unchanged when there is no callback); when `loop` is true
the state is unchanged.  (b) The same holds for every overlay ever created, live or not,
whenever its `"ended"` event is delivered: with `loop` false no overlay is left, whatever
overlay was live is removed and `onEnd` is called exactly once if it is a function; with
`loop` true nothing changes.  (c) After a command with `wait = "true"` and `loop ≠ "true"`,
delivering `"ended"` to its overlay leaves no overlay and the flag `false`, written once. -/
theorem ended_handling (rt : Runtime) (acts : List Action) :
    ∃ s, run rt init acts = .ok s ∧
      (∀ o : Options, ∃ s1, createVideoElement s o = .ok s1 ∧
        s1.customVideoElement = some (videoFor s.nextUid o) ∧
        videoFor s.nextUid o ∈ s1.body ∧
        createdWith s1 (videoFor s.nextUid o) = some o ∧
        ∃ s2, dispatchEvent s1 (.element (videoFor s.nextUid o)) .ended = .ok s2 ∧
          (o.loop = false →
            s2.customVideoElement = none ∧ videoFor s.nextUid o ∉ s2.body ∧
            s2.log = s1.log ++ .removedChild (videoFor s.nextUid o) ::
              o.onEnd.toList.map (fun _ => Effect.calledOnEnd) ∧
            (o.onEnd ≠ none → s2.customVideoPlaying = .boolean false) ∧
            (o.onEnd = none → s2.customVideoPlaying = s1.customVideoPlaying)) ∧
          (o.loop = true → s2 = s1)) ∧
      (∀ v o, createdWith s v = some o →
        ∃ s2, dispatchEvent s (.element v) .ended = .ok s2 ∧
          (o.loop = false →
            s2.customVideoElement = none ∧ v ∉ s2.body ∧
            s2.log = s.log ++ s.customVideoElement.toList.map Effect.removedChild ++
              o.onEnd.toList.map (fun _ => Effect.calledOnEnd) ∧
            (o.onEnd ≠ none → s2.customVideoPlaying = .boolean false) ∧
            (o.onEnd = none → s2.customVideoPlaying = s.customVideoPlaying)) ∧
          (o.loop = true → s2 = s)) ∧
      (∀ (this : Interpreter) (args : Args), args.wait = "true" → args.loop ≠ "true" →
        ∃ this1 s1 v, playCustomVideo rt args this s = .ok (this1, s1) ∧
          s1.customVideoElement = some v ∧
          ∃ s2, dispatchEvent s1 (.element v) .ended = .ok s2 ∧
            s2.customVideoElement = none ∧ v ∉ s2.body ∧
            s2.customVideoPlaying = .boolean false ∧ clears s2 = clears s1 + 1) := by
  obtain ⟨s, hs, hi⟩ := reachable_inv rt acts
  refine ⟨s, hs, ?_, ?_, ?_⟩
  · intro o
    obtain ⟨s1, h1, hi1, hc, hb, he, _, _, _⟩ := after_create hi o
    obtain ⟨s2, h2, _, hA, hB⟩ := ended_outcome hi1 hc he
    refine ⟨s1, h1, hc, by rw [hb]; exact List.mem_singleton.mpr rfl,
      createdWith_of_endedOn he, s2, h2, ?_, hB⟩
    intro hl
    obtain ⟨a, _, b, c, d, e⟩ := hA hl
    exact ⟨a, by rw [b]; exact List.not_mem_nil _, c, d, e⟩
  · intro v o hc
    have he := endedOn_of_createdWith hi hc
    obtain ⟨s2, h2, _, hA, hB⟩ := ended_outcome_any hi he
    refine ⟨s2, h2, ?_, hB⟩
    intro hl
    obtain ⟨a, _, b, c, d, e⟩ := hA hl
    exact ⟨a, by rw [b]; exact List.not_mem_nil _, c, d, e⟩
  · intro this args hw hl
    obtain ⟨this1, s1, o, hcmd, hi1, hcv, he, _, _, hlo, harm, _⟩ :=
      after_command rt args this hi
    obtain ⟨hon, _⟩ := harm ⟨hw, hl⟩
    obtain ⟨s2, h2, _, hA, _⟩ := ended_outcome hi1 hcv he
    obtain ⟨a, _, b, c, d, _⟩ := hA (by rw [hlo]; simpa using hl)
    refine ⟨_, _, _, hcmd, hcv, s2, h2, a, by rw [b]; exact List.not_mem_nil _,
      d (by rw [hon]; simp), ?_⟩
    simp [clears, c, hon, List.count_append]

/-- Witness for C4: the spec's concrete scenario.  After the command with `wait`, `fade`
and `skip` on and `loop` off, end of stream removes the overlay, leaves the flag `false`
and has called the callback once. -/
theorem ended_handling_witness :
    (introArgs.wait = "true" ∧ introArgs.loop ≠ "true") ∧
      ∃ this1 s1 v, playCustomVideo webmRuntime introArgs idleInterpreter init = .ok (this1, s1) ∧
        s1.customVideoElement = some v ∧
        ∃ s2, dispatchEvent s1 (.element v) .ended = .ok s2 ∧
          s2.customVideoElement = none ∧ v ∉ s2.body ∧
          s2.customVideoPlaying = .boolean false ∧ clears s2 = clears s1 + 1 := by
  obtain ⟨s, hs, _, _, hc⟩ := ended_handling webmRuntime []
  cases hs
  exact ⟨by decide, hc idleInterpreter introArgs (by decide) (by decide)⟩

/-- C6. Skip while disabled.  (a) In every reachable state, after `createVideoElement` with
`skipEnabled` false (whatever overlay it replaced), delivering `"keydown"`, `"mousedown"`
or `"touchend"` to any target returns the state unchanged: same body, same
`customVideoElement`, same flag, no callback run.  (b) The same holds in every reachable
state whose live overlay was created with `skipEnabled` false. -/
theorem skip_disabled_inert (rt : Runtime) (acts : List Action) :
    ∃ s, run rt init acts = .ok s ∧
      (∀ o : Options, o.skipEnabled = false →
        ∃ s1, createVideoElement s o = .ok s1 ∧
          s1.customVideoElement = some (videoFor s.nextUid o) ∧
          ∀ (t : Target) (ty : EventType), ty ≠ .ended → dispatchEvent s1 t ty = .ok s1) ∧
      (∀ v o, s.customVideoElement = some v → createdWith s v = some o →
        o.skipEnabled = false →
        ∀ (t : Target) (ty : EventType), ty ≠ .ended → dispatchEvent s t ty = .ok s) := by
  obtain ⟨s, hs, hi⟩ := reachable_inv rt acts
  refine ⟨s, hs, ?_, ?_⟩
  · intro o ho
    obtain ⟨s1, h1, hi1, hc, _, _, hsel, _, _⟩ := after_create hi o
    rw [ho] at hsel
    exact ⟨s1, h1, hc, fun t ty hty => input_quiet hi1 hsel t ty hty⟩
  · intro v o hv hc ho t ty hty
    obtain ⟨_, hsel⟩ := live_options hi hv hc
    rw [ho] at hsel
    exact input_quiet hi hsel t ty hty

/-- Witness for C6: an overlay without skip that replaces one with skip; a key press then
changes nothing. -/
theorem skip_disabled_inert_witness :
    plainOptions.skipEnabled = false ∧
      ∃ s s1, run webmRuntime init [.create introOptions] = .ok s ∧
        createVideoElement s plainOptions = .ok s1 ∧
        dispatchEvent s1 .document .keydown = .ok s1 ∧
        dispatchEvent s1 (.element (videoFor 0 introOptions)) .mousedown = .ok s1 ∧
        dispatchEvent s1 (.element (videoFor 1 plainOptions)) .touchend = .ok s1 := by
  obtain ⟨s, hs, ha, _⟩ := skip_disabled_inert webmRuntime [.create introOptions]
  obtain ⟨s1, h1, _, hq⟩ := ha plainOptions rfl
  exact ⟨rfl, s, s1, hs, h1, hq _ _ (by decide), hq _ _ (by decide), hq _ _ (by decide)⟩

/-- C9. Skip-listener registration invariant.  In every reachable state: a live overlay
carries the options it was created with; if those have `skipEnabled` true, then
`skipEventListener` holds the skip closure made for that overlay and the registrations for
the skip event types are exactly that one handler on document key-down, overlay pointer-down
and overlay touch-end; if no overlay is live, or the live one was created with `skipEnabled`
false, then `skipEventListener` is null and no registration for a skip event type exists on
any target; `skipEventListener` non-null implies `customVideoElement` non-null; and a
teardown returns a state with no registration for a skip event type at all, in which
delivering a key-down, pointer-down or touch-end to any target does nothing. -/
theorem skip_registration (rt : Runtime) (acts : List Action) :
    ∃ s, run rt init acts = .ok s ∧
      (∀ v, s.customVideoElement = some v → ∃ o, createdWith s v = some o) ∧
      (∀ v o, s.customVideoElement = some v → createdWith s v = some o →
        o.skipEnabled = true →
        s.skipEventListener = some (.onSkip v.uid o) ∧
        skipSubscriptions s =
          [⟨.document, .keydown, .onSkip v.uid o⟩, ⟨.element v, .mousedown, .onSkip v.uid o⟩,
            ⟨.element v, .touchend, .onSkip v.uid o⟩]) ∧
      ((¬∃ v o, s.customVideoElement = some v ∧ createdWith s v = some o ∧
          o.skipEnabled = true) →
        s.skipEventListener = none ∧ skipSubscriptions s = []) ∧
      (s.skipEventListener ≠ none → s.customVideoElement ≠ none) ∧
      (∃ s1, cleanupAndDestroyVideoElement s = .ok s1 ∧ skipSubscriptions s1 = [] ∧
        s1.skipEventListener = none ∧
        ∀ (t : Target) (ty : EventType), ty ≠ .ended → dispatchEvent s1 t ty = .ok s1) := by
  obtain ⟨s, hs, hi⟩ := reachable_inv rt acts
  refine ⟨s, hs, ?_, ?_, ?_, ?_, ?_⟩
  · intro v hv
    obtain ⟨o, he, _⟩ := hi.live v hv
    exact ⟨o, createdWith_of_endedOn he⟩
  · intro v o hv hc ho
    obtain ⟨_, hsel⟩ := live_options hi hv hc
    rw [ho] at hsel
    refine ⟨hsel, ?_⟩
    rw [hi.skip_eq, hv, hsel]
    rfl
  · intro hn
    cases hv : s.customVideoElement with
    | none =>
      refine ⟨hi.no_orphan hv, ?_⟩
      rw [hi.skip_eq, hv]
      rfl
    | some v =>
      obtain ⟨o, he, hsel⟩ := hi.live v hv
      have ho : o.skipEnabled = false := by
        cases hk : o.skipEnabled
        · rfl
        · exact absurd ⟨v, o, hv, createdWith_of_endedOn he, hk⟩ hn
      rw [ho] at hsel
      refine ⟨hsel, ?_⟩
      rw [hi.skip_eq, hv, hsel]
      rfl
  · intro hl hv
    exact hl (hi.no_orphan hv)
  · have ht := inv_torn hi
    refine ⟨torn s, cleanup_eq s, ?_, torn_skipEventListener hi,
      fun t ty hty => input_quiet ht (torn_skipEventListener hi) t ty hty⟩
    rw [ht.skip_eq, torn_customVideoElement]
    rfl

/-- Witness for C9: with one skippable overlay live, the skip registrations are the three
of its closure; after a key press none is left and the variables are null. -/
theorem skip_registration_witness :
    ∃ s s2, run webmRuntime init [.create introOptions] = .ok s ∧
      s.skipEventListener = some (.onSkip 0 introOptions) ∧
      skipSubscriptions s =
        [⟨.document, .keydown, .onSkip 0 introOptions⟩,
          ⟨.element (videoFor 0 introOptions), .mousedown, .onSkip 0 introOptions⟩,
          ⟨.element (videoFor 0 introOptions), .touchend, .onSkip 0 introOptions⟩] ∧
      run webmRuntime init [.create introOptions, .deliver .document .keydown] = .ok s2 ∧
      s2.skipEventListener = none ∧ s2.customVideoElement = none ∧
      skipSubscriptions s2 = [] := by
  obtain ⟨s, hs, _, hon, _, _, _⟩ := skip_registration webmRuntime [.create introOptions]
  obtain ⟨s2, hs2, _, _, hoff, _, _⟩ :=
    skip_registration webmRuntime [.create introOptions, .deliver .document .keydown]
  have h0 : run webmRuntime init [.create introOptions]
      = .ok (mount (torn init) introOptions) := by
    simp only [run, List.foldlM, step, create_eq, bind, Except.bind, pure, Except.pure]
  have hs0 := hs
  rw [h0] at hs0
  cases hs0
  have hcv : (mount (torn init) introOptions).customVideoElement
      = some (videoFor 0 introOptions) := by decide
  have hcw : createdWith (mount (torn init) introOptions) (videoFor 0 introOptions)
      = some introOptions := by decide
  obtain ⟨ha, hb⟩ := hon _ _ hcv hcw rfl
  have hcv2 : s2.customVideoElement = none := by
    have h2 : run webmRuntime init [.create introOptions, .deliver .document .keydown]
        = .ok (callOnEnd introOptions (torn (mount (torn init) introOptions))) := rfl
    rw [h2] at hs2
    cases hs2
    decide
  have hnone : ¬∃ v o, s2.customVideoElement = some v ∧ createdWith s2 v = some o ∧
      o.skipEnabled = true := by
    rintro ⟨v, o, hv, _, _⟩
    rw [hcv2] at hv
    cases hv
  obtain ⟨hc, hd⟩ := hoff hnone
  exact ⟨_, s2, hs, ha, hb, hs2, hc, hcv2, hd⟩

/-- C2, as the code has it.  After a command with `wait = "true"` and `loop ≠ "true"`,
issued in any reachable state, the blocking flag is `true`.  Call a host event *ending* when
it is the overlay's end of stream or, if `skipEnabled` is `"true"`, a key press or a pointer
press or touch end on the overlay.  Then any sequence of host events without an ending event
leaves the state as it is (flag `true`, nothing written); and any sequence with an ending
event leaves the flag `false`, written exactly once, by the first ending event. -/
theorem blocking_until_session_end (rt : Runtime) (acts : List Action) (this : Interpreter)
    (args : Args) (hw : args.wait = "true") (hl : args.loop ≠ "true") :
    ∃ s0 this1 s1 v, run rt init acts = .ok s0 ∧
      playCustomVideo rt args this s0 = .ok (this1, s1) ∧
      s1.customVideoElement = some v ∧
      s1.customVideoPlaying = .boolean true ∧
      (∀ pre : List HostEvent,
        (∀ x ∈ pre, endsSession (decide (args.skipEnabled = "true")) v x = false) →
        hostRun s1 pre = .ok s1) ∧
      (∀ (pre : List HostEvent) (e : HostEvent) (post : List HostEvent),
        (∀ x ∈ pre, endsSession (decide (args.skipEnabled = "true")) v x = false) →
        endsSession (decide (args.skipEnabled = "true")) v e = true →
        ∃ s2 s3, hostRun s1 (pre ++ [e]) = .ok s2 ∧ hostRun s1 (pre ++ e :: post) = .ok s3 ∧
          s2.customVideoPlaying = .boolean false ∧ clears s2 = clears s1 + 1 ∧
          s3.customVideoPlaying = .boolean false ∧ clears s3 = clears s1 + 1 ∧
          s3.customVideoElement = none) := by
  obtain ⟨s0, hs0, hi0⟩ := reachable_inv rt acts
  obtain ⟨this1, s1, o, hcmd, hi1, hv, he, hsel, hsk, hlo, harm, _⟩ :=
    after_command rt args this hi0
  obtain ⟨hon, hfl⟩ := harm ⟨hw, hl⟩
  have hloop : o.loop = false := by rw [hlo]; simpa using hl
  have hquiet : ∀ pre : List HostEvent,
      (∀ x ∈ pre, endsSession (decide (args.skipEnabled = "true")) (videoFor s0.nextUid o) x
        = false) → hostRun s1 pre = .ok s1 := by
    intro pre hpre
    apply hostRun_fixed
    intro x hx
    have hx2 := hpre x hx
    rw [← hsk] at hx2
    apply host_inert hi1 hv he x
    · intro _ ht
      have hsf : o.skipEnabled = false := by
        cases hk : o.skipEnabled
        · rfl
        · rw [hk, ht] at hx2
          cases hx2
      rw [hsel, hsf]
      rfl
    · intro hxe
      rw [hxe] at hx2
      simp [endsSession] at hx2
  refine ⟨s0, this1, s1, _, hs0, hcmd, hv, hfl, hquiet, ?_⟩
  intro pre e post hpre hend
  rw [← hsk] at hend
  obtain ⟨s2, h2, hi2, hcv2, _, _, hlog, hf, _⟩ := host_end hi1 hv he hsel hloop e hend
  have hfl2 : s2.customVideoPlaying = .boolean false := hf (by rw [hon]; simp)
  have hcl : clears s2 = clears s1 + 1 := by
    simp [clears, hlog, hon, List.count_append]
  have hpost : hostRun s2 post = .ok s2 :=
    hostRun_fixed post fun x _ => host_dead hi2 hcv2 x
  have hone : hostRun s1 [e] = .ok s2 := by
    simp only [hostRun, List.foldlM, h2, bind, Except.bind, pure, Except.pure]
  have hmany : hostRun s1 (e :: post) = .ok s2 := by
    have : hostRun s1 (e :: post) = (hostDeliver s1 e).bind fun st => hostRun st post := rfl
    rw [this, h2]
    exact hpost
  refine ⟨s2, s2, ?_, ?_, hfl2, hcl, hfl2, hcl, hcv2⟩
  · rw [hostRun_append, hquiet pre hpre]
    exact hone
  · rw [hostRun_append, hquiet pre hpre]
    exact hmany

/-- Witness for C2: the spec's scenario from the initial state.  A pointer press on an
element that is not the overlay does not end the session; the overlay's end of stream does,
and a key press delivered after it writes nothing more. -/
theorem blocking_until_session_end_witness :
    (introArgs.wait = "true" ∧ introArgs.loop ≠ "true") ∧
      ∃ s1 v, (playCustomVideo webmRuntime introArgs idleInterpreter init).map Prod.snd = .ok s1 ∧
        s1.customVideoElement = some v ∧
        s1.customVideoPlaying = .boolean true ∧
        hostRun s1 [] = .ok s1 ∧
        ∃ s3, hostRun s1 ([] ++ .endOfStream v :: [.keyDown]) = .ok s3 ∧
          s3.customVideoPlaying = .boolean false ∧ clears s3 = clears s1 + 1 := by
  obtain ⟨s0, this1, s1, v, hs0, hcmd, hv, hfl, hq, hend⟩ :=
    blocking_until_session_end webmRuntime [] idleInterpreter introArgs (by decide) (by decide)
  cases hs0
  obtain ⟨s2, s3, _, h3, _, _, hf3, hc3, _⟩ :=
    hend [] (.endOfStream v) [.keyDown] (by intro x hx; cases hx) (by simp [endsSession])
  refine ⟨by decide, s1, v, ?_, hv, hfl, hq [] (by intro x hx; cases hx), s3, h3, hf3, hc3⟩
  rw [hcmd]
  rfl

/-- Counterexample to C2 as stated: after the spec's scenario command (`wait = "true"`,
`loop = "false"`, skip enabled) the flag is `true`, and a single key press, with no end of
stream delivered, leaves it `false`. -/
theorem flag_cleared_before_end_of_stream :
    (introArgs.wait = "true" ∧ introArgs.loop = "false") ∧
      ∃ s1 s2, (playCustomVideo webmRuntime introArgs idleInterpreter init).map Prod.snd = .ok s1 ∧
        s1.customVideoPlaying = .boolean true ∧
        hostRun s1 [.keyDown] = .ok s2 ∧
        s2.customVideoPlaying = .boolean false := by
  refine ⟨by decide, _, _, rfl, by decide, rfl, by decide⟩

/-- C5, as the code has it.  After a command with `skipEnabled = "true"`, issued in any
reachable state with any `wait` and `loop`, delivering a document key-down, a pointer-down on
the overlay or a touch-end on the overlay returns a state in which the overlay is out of the
body, `customVideoElement` and `skipEventListener` are null and no skip registration is
left; the blocking flag is `false` afterwards when the command was armed (`wait = "true"` and
`loop ≠ "true"`), and otherwise keeps the value it had before the event. -/
theorem skip_tears_down (rt : Runtime) (acts : List Action) (this : Interpreter)
    (args : Args) (hs : args.skipEnabled = "true") :
    ∃ s0 this1 s1 v, run rt init acts = .ok s0 ∧
      playCustomVideo rt args this s0 = .ok (this1, s1) ∧
      s1.customVideoElement = some v ∧ v ∈ s1.body ∧
      ∀ p ∈ [(Target.document, EventType.keydown), (Target.element v, EventType.mousedown),
          (Target.element v, EventType.touchend)],
        ∃ s2, dispatchEvent s1 p.1 p.2 = .ok s2 ∧
          s2.customVideoElement = none ∧ s2.skipEventListener = none ∧ v ∉ s2.body ∧
          skipSubscriptions s2 = [] ∧
          ((args.wait = "true" ∧ args.loop ≠ "true") →
            s2.customVideoPlaying = .boolean false) ∧
          (¬(args.wait = "true" ∧ args.loop ≠ "true") →
            s2.customVideoPlaying = s1.customVideoPlaying) := by
  obtain ⟨s0, hs0, hi0⟩ := reachable_inv rt acts
  obtain ⟨this1, s1, o, hcmd, hi1, hv, _, hsel, hsk, _, harm, hun⟩ :=
    after_command rt args this hi0
  have hso : o.skipEnabled = true := by rw [hsk]; simpa using hs
  rw [hso] at hsel
  have hb : videoFor s0.nextUid o ∈ s1.body := by
    rw [hi1.body_eq, hv]
    exact List.mem_singleton.mpr rfl
  refine ⟨s0, this1, s1, _, hs0, hcmd, hv, hb, ?_⟩
  intro p hp
  have hm : (⟨p.1, p.2, .onSkip s0.nextUid o⟩ : Registration)
      ∈ skipTriple (videoFor s0.nextUid o) (.onSkip s0.nextUid o) := by
    simp only [List.mem_cons, List.mem_singleton, List.not_mem_nil, or_false] at hp
    rcases hp with rfl | rfl | rfl <;> simp [skipTriple]
  obtain ⟨s2, h2, hi2, hcv2, hsel2, hb2, _, hf, hk⟩ := skip_outcome hi1 hv hsel p.1 p.2 hm
  refine ⟨s2, h2, hcv2, hsel2, by rw [hb2]; exact List.not_mem_nil _, ?_, ?_, ?_⟩
  · rw [hi2.skip_eq, hcv2]
    rfl
  · intro hc
    exact hf (by rw [(harm hc).1]; simp)
  · intro hc
    exact hk (hun hc).1

/-- Witness for C5: a looping, skippable video started from the initial state; a key press
tears it down and the flag keeps the value it had. -/
theorem skip_tears_down_witness :
    (loopingArgs.skipEnabled = "true" ∧
      ¬(loopingArgs.wait = "true" ∧ loopingArgs.loop ≠ "true")) ∧
      ∃ s1 s2, (playCustomVideo webmRuntime loopingArgs idleInterpreter init).map Prod.snd
          = .ok s1 ∧
        dispatchEvent s1 .document .keydown = .ok s2 ∧
        s2.customVideoElement = none ∧ s2.skipEventListener = none ∧
        s2.customVideoPlaying = s1.customVideoPlaying := by
  obtain ⟨s0, this1, s1, v, hs0, hcmd, _, _, hall⟩ :=
    skip_tears_down webmRuntime [] idleInterpreter loopingArgs rfl
  cases hs0
  obtain ⟨s2, h2, hcv, hsel, _, _, _, hkeep⟩ :=
    hall (Target.document, EventType.keydown) (List.mem_cons_self _ _)
  have hs1 : (playCustomVideo webmRuntime loopingArgs idleInterpreter init).map Prod.snd
      = .ok s1 := by rw [hcmd]; rfl
  exact ⟨by decide, s1, s2, hs1, h2, hcv, hsel, hkeep (by decide)⟩

/-- Counterexample to C5 as stated: a blocking cutscene is replaced, while live, by a
command with `skipEnabled = "true"` and `loop = "true"`; a key press then tears the overlay
down, and the blocking flag is `true` afterwards, not `false`. -/
theorem skip_leaves_flag_set :
    (loopingArgs.skipEnabled = "true" ∧ loopingArgs.loop = "true") ∧
      ∃ s1 s2, run webmRuntime init
          [.command idleInterpreter cutsceneArgs, .command idleInterpreter loopingArgs]
            = .ok s1 ∧
        s1.customVideoElement ≠ none ∧
        dispatchEvent s1 .document .keydown = .ok s2 ∧
        s2.customVideoElement = none ∧ s2.body = [] ∧
        s2.customVideoPlaying = .boolean true := by
  refine ⟨by decide, _, _, rfl, by decide, rfl, by decide, by decide, by decide⟩

/-- C10. Replacement does not complete the replaced session.  `createVideoElement` never
changes the blocking flag and never runs an `onEnd` callback, whatever it tears down.  So
when, in any reachable state, a command with `wait = "true"` and `loop ≠ "true"` is followed
by a command with `loop = "true"` and `skipEnabled ≠ "true"`, the first overlay being still
live, the result has the flag `true` and a live overlay, and every sequence of host events
leaves that state as it is: nothing sets the flag to `false`. -/
theorem replacement_strands_flag (rt : Runtime) (acts : List Action) (i j : Interpreter)
    (a b : Args) (ha1 : a.wait = "true") (ha2 : a.loop ≠ "true") (hb1 : b.loop = "true")
    (hb2 : b.skipEnabled ≠ "true") :
    (∀ (s : State) (o : Options), ∃ s1, createVideoElement s o = .ok s1 ∧
      s1.customVideoPlaying = s.customVideoPlaying ∧ clears s1 = clears s) ∧
    ∃ s0 i1 s1 j1 s2 v1 v2, run rt init acts = .ok s0 ∧
      playCustomVideo rt a i s0 = .ok (i1, s1) ∧
      s1.customVideoElement = some v1 ∧
      playCustomVideo rt b j s1 = .ok (j1, s2) ∧
      s2.customVideoElement = some v2 ∧ s2.body = [v2] ∧
      s2.customVideoPlaying = .boolean true ∧
      clears s2 = clears s0 ∧
      ∀ evs : List HostEvent, hostRun s2 evs = .ok s2 := by
  refine ⟨create_keeps_flag, ?_⟩
  obtain ⟨s0, hs0, hi0⟩ := reachable_inv rt acts
  obtain ⟨i1, s1, o1, hc1, hi1, hv1, _, _, _, _, harm1, _⟩ := after_command rt a i hi0
  obtain ⟨j1, s2, o2, hc2, hi2, hv2, he2, hsel2, hsk2, hlo2, _, hun2⟩ :=
    after_command rt b j hi1
  have hnb : ¬(b.wait = "true" ∧ b.loop ≠ "true") := fun h => h.2 hb1
  have hfl : s2.customVideoPlaying = .boolean true := by
    rw [(hun2 hnb).2, (harm1 ⟨ha1, ha2⟩).2]
  have hso : o2.skipEnabled = false := by rw [hsk2]; simpa using hb2
  have hlp : o2.loop = true := by rw [hlo2]; simpa using hb1
  rw [hso] at hsel2
  have hbody : s2.body = [videoFor s1.nextUid o2] := by rw [hi2.body_eq, hv2]; rfl
  have hcl : clears s2 = clears s0 := by
    have e1 : clears s1 = clears s0 := by
      have h := command_eq rt a i s0
      rw [hc1] at h
      by_cases hc : a.wait = "true" ∧ a.loop ≠ "true"
      · rw [if_pos hc] at h
        cases h
        obtain ⟨x, hx, _, hxc⟩ := create_keeps_flag
          { s0 with customVideoPlaying := .boolean true }
          { source := "movies/" ++ a.src ++ detectVideoExtension rt
            speed := .floatOrOne a.speed
            wait := decide (a.wait = "true")
            fade := decide (a.fade = "true")
            skipEnabled := decide (a.skipEnabled = "true")
            width := .intOrHundred a.width
            height := .intOrHundred a.height
            loop := decide (a.loop = "true")
            onEnd := some .clearPlaying }
        rw [create_eq] at hx
        cases hx
        exact hxc
      · exact absurd ⟨ha1, ha2⟩ hc
    have e2 : clears s2 = clears s1 := by
      have h := command_eq rt b j s1
      rw [hc2, if_neg hnb] at h
      cases h
      obtain ⟨x, hx, _, hxc⟩ := create_keeps_flag s1
        { source := "movies/" ++ b.src ++ detectVideoExtension rt
          speed := .floatOrOne b.speed
          wait := decide (b.wait = "true")
          fade := decide (b.fade = "true")
          skipEnabled := decide (b.skipEnabled = "true")
          width := .intOrHundred b.width
          height := .intOrHundred b.height
          loop := decide (b.loop = "true")
          onEnd := none }
      rw [create_eq] at hx
      cases hx
      exact hxc
    rw [e2, e1]
  refine ⟨s0, i1, s1, j1, s2, _, _, hs0, hc1, hv1, hc2, hv2, hbody, hfl, hcl, ?_⟩
  intro evs
  apply hostRun_fixed
  intro e _
  exact host_inert hi2 hv2 he2 e (fun _ _ => hsel2) (fun _ => hlp)

/-- Witness for C10: from the initial state, a blocking cutscene followed by a looping
wallpaper that cannot be skipped; end of stream, key press and pointer press on the new
overlay leave the flag `true`. -/
theorem replacement_strands_flag_witness :
    (cutsceneArgs.wait = "true" ∧ cutsceneArgs.loop ≠ "true" ∧
      wallpaperArgs.loop = "true" ∧ wallpaperArgs.skipEnabled ≠ "true") ∧
      ∃ s2 v2, run webmRuntime init
          [.command idleInterpreter cutsceneArgs, .command idleInterpreter wallpaperArgs]
            = .ok s2 ∧
        s2.customVideoElement = some v2 ∧
        s2.customVideoPlaying = .boolean true ∧
        hostRun s2 [.endOfStream v2, .keyDown, .pointerDown v2, .touchEnd v2] = .ok s2 := by
  obtain ⟨_, s0, i1, s1, j1, s2, v1, v2, hs0, hc1, _, hc2, hv2, _, hfl, _, hall⟩ :=
    replacement_strands_flag webmRuntime [] idleInterpreter idleInterpreter
      cutsceneArgs wallpaperArgs (by decide) (by decide) (by decide) (by decide)
  cases hs0
  refine ⟨by decide, s2, v2, ?_, hv2, hfl, hall _⟩
  simp only [run, List.foldlM, step, hc1, hc2, bind, Except.bind, pure, Except.pure]

end CustomVideoPlayer
